import Mathlib

/-!
Shallow embedding of the Thanos store proxy (`pkg/store/proxy.go`) — the
query fan-out controller: backend filtering (`storeMatches`,
`storeMatchDebugMetadata`, `labelSetsMatch`), the `Series` open loop with its
partial-response policies and the group/replica failure check
(`checkGroupReplicaErrors`), the merged-stream warning loop, `Info`
aggregation, and the `LabelValues` preamble.

Go machine details modelled: `int64` times become `Int` (the `math.MaxInt64`
initialisation constant is kept explicit); Go `map[string]map[string]int`
counters become association lists built exclusively by the source's
`bumpCounter`; gRPC streams become explicit lists of responses; the
sub-request opener (`newAsyncRespSet`) and the loser-tree merger, which are
outside the translated sources, are oracles (an outcome per store, a merge
function over opened cursors).
-/

namespace ThanosProxy

/-- A label set: a sequence of `(name, value)` pairs, as `labels.Labels`. -/
abbrev Labels := List (String × String)

/-- `labels.Labels.Get`: the value stored under a name, `""` when absent. -/
def labelsGet (ls : Labels) (n : String) : String :=
  match ls.find? (fun p => p.1 == n) with
  | some p => p.2
  | none => ""

/-- `labels.Labels.Has`: whether the label set carries the given name. -/
def labelsHas (ls : Labels) (n : String) : Bool :=
  ls.any (fun p => p.1 == n)

/-- A label matcher: a name plus its (abstract) value predicate, the Go Matches method. -/
structure Matcher where
  name : String
  accepts : String → Bool

/-- One backend store descriptor (the `Client` fields the proxy reads). -/
structure Store where
  labelSets : List Labels
  minT : Int
  maxT : Int
  addr : String
  isLocal : Bool
  groupKey : String
  replicaKey : String
deriving DecidableEq

/-- `labelSetsMatch` (proxy.go): OR across the label sets; a matcher fails a
set iff the set has the matcher's name and the stored value does not satisfy
the matcher; the empty list of label sets passes unconditionally. -/
def labelSetsMatch (ms : List Matcher) (lsets : List Labels) : Bool :=
  if lsets.isEmpty then true
  else lsets.any (fun ls =>
    !(ms.any (fun m => labelsHas ls m.name && !(m.accepts (labelsGet ls m.name)))))

/-- `storeMatchDebugMetadata` (proxy.go): with no debug matchers every store
passes; otherwise local stores are rejected and a remote store passes iff
some matcher group accepts the singleton label set `{__address__: addr}`. -/
def storeMatchDebugMetadata (dm : List (List Matcher)) (addr : String)
    (isLocal : Bool) : Bool :=
  if dm.isEmpty then true
  else if isLocal then false
  else dm.any (fun sm => labelSetsMatch sm [[("__address__", addr)]])

/-- `storeMatches` (proxy.go): time-range overlap, then the debug address
filter, then the external-label filter. -/
def storeMatches (dm : List (List Matcher)) (st : Store) (mint maxt : Int)
    (ms : List Matcher) : Bool :=
  if mint > st.maxT ∨ maxt < st.minT then false
  else if !storeMatchDebugMetadata dm st.addr st.isLocal then false
  else labelSetsMatch ms st.labelSets

/-- Modelled from the spec: `matchesExternalLabels`, the matcher-reduction
helper called by `Series` but not among the translated sources. Per the spec,
the request's matchers are reduced against the proxy's `selector_labels`: a
matcher naming a selector label must accept the selector's value (otherwise
the request is inconsistent with the selector), and matchers naming selector
labels are stripped from the reduced list. Returns (consistent?, reduced). -/
def matchesExternalLabels (ms : List Matcher) (selector : Labels) :
    Bool × List Matcher :=
  (ms.all (fun m => !labelsHas selector m.name ||
      m.accepts (labelsGet selector m.name)),
   ms.filter (fun m => !labelsHas selector m.name))

/-- Outcome of the `Series` preamble and backend-selection phase. -/
inductive Phase1Result
  /-- `return nil` before any backend is contacted: success, no responses. -/
  | emptyOk
  /-- `status.Error(codes.InvalidArgument, ...)` before any backend is contacted. -/
  | invalidArgument (msg : String)
  /-- the surviving backends are queried with the reduced matchers. -/
  | query (targets : List Store) (reduced : List Matcher)

/-- The backends a `Phase1Result` goes on to contact. -/
def contactedStores : Phase1Result → List Store
  | .query ts _ => ts
  | _ => []

/-- The `Series` preamble (matcher reduction) and backend selection
(`storeMatches` plus the TSDB selector, the latter an oracle predicate; its
extra matchers only rewrite the sub-request and are not modelled). -/
def seriesSelect (sel : Labels) (dm : List (List Matcher))
    (tsdbSel : List Labels → Bool) (mint maxt : Int) (ms : List Matcher)
    (stores : List Store) : Phase1Result :=
  let res := matchesExternalLabels ms sel
  if !res.1 then .emptyOk
  else if res.2.isEmpty then
    .invalidArgument "no matchers specified (excluding selector labels)"
  else
    let survivors := stores.filter
      (fun st => storeMatches dm st mint maxt res.2 && tsdbSel st.labelSets)
    if survivors.isEmpty then .emptyOk
    else .query survivors res.2

/-- The partial-response strategy enum (`storepb.PartialResponseStrategy`,
values `WARN`, `ABORT`, `GROUP_REPLICA`). -/
inductive Strategy
  | warn
  | abort
  | groupReplica
deriving DecidableEq

/-- A two-level counter `map[groupKey]map[replicaKey]int`, as an association
list (entries are only ever created by `bumpCounter`, with positive counts). -/
abbrev CMap := List (String × List (String × Nat))

/-- Association-list lookup with a default. -/
def lookupD {α : Type} (m : List (String × α)) (k : String) (d : α) : α :=
  match m.find? (fun p => p.1 == k) with
  | some p => p.2
  | none => d

/-- The inner `mp[k1][k2]++` update on one group's replica counters. -/
def bumpInner (inner : List (String × Nat)) (k : String) : List (String × Nat) :=
  match inner with
  | [] => [(k, 1)]
  | (k', v) :: rest =>
    if k' = k then (k', v + 1) :: rest else (k', v) :: bumpInner rest k

/-- `bumpCounter` (proxy.go): `mp[k1][k2]++`, creating inner maps on demand. -/
def bumpCounter (k1 k2 : String) (mp : CMap) : CMap :=
  match mp with
  | [] => [(k1, [(k2, 1)])]
  | (g, inner) :: rest =>
    if g = k1 then (g, bumpInner inner k2) :: rest
    else (g, inner) :: bumpCounter k1 k2 rest

/-- A counter map built from a sequence of `(groupKey, replicaKey)` bump
events, as `Series` builds `groupReplicaStores` and `failedStores`. -/
def buildCounter (events : List (String × String)) : CMap :=
  events.foldl (fun m e => bumpCounter e.1 e.2 m) []

/-- `len(mp[g])` — the number of replica entries of group `g`. -/
def groupSize (mp : CMap) (g : String) : Nat :=
  (lookupD mp g []).length

/-- `mp[g][r]` — the counter of replica `r` in group `g` (0 when absent). -/
def replicaCount (mp : CMap) (g r : String) : Nat :=
  lookupD (lookupD mp g []) r 0

/-- The number of distinct replica keys appearing with group `g` in a list
of `(groupKey, replicaKey)` events. -/
def distinctReplicas (evs : List (String × String)) (g : String) : Nat :=
  ((evs.filter (fun e => e.1 == g)).map Prod.snd).toFinset.card

/-- `checkGroupReplicaErrors` (proxy.go), specialised to the failing store's
group and replica keys: the call returns the (non-nil) error — `true` here —
iff more than one replica of the group has a failure entry, or the group has
exactly one eligible replica entry and that replica's failure count
exceeds one. -/
def checkGroupReplicaErrors (grs failed : CMap) (g r : String) : Bool :=
  if groupSize failed g > 1 then true
  else if groupSize grs g = 1 ∧ replicaCount failed g r > 1 then true
  else false

/-- Result of `newAsyncRespSet` for one store, as an oracle: the opened
response set is opaque, so only success or the open-time error is kept. -/
inductive OpenOutcome
  | success
  | failure (msg : String)
deriving DecidableEq

/-- Result of the `Series` fan-out open loop. On `done`: the warnings sent to
the caller, the appended response sets (`none` is the nil response set
appended when a group-replica failure is tolerated), the final
`failedStores`, and the final `totalFailedStores`. -/
inductive OpenResult
  | aborted (msg : String)
  | done (warnings : List String) (opened : List (Option Store))
      (failed : CMap) (totalFailed : Nat)
deriving DecidableEq

/-- Whether the open loop returned the error to the caller. -/
def isAbortedO : OpenResult → Bool
  | .aborted _ => true
  | .done _ _ _ _ => false

/-- Prepend a warning sent during the open loop. -/
def prependWarning (m : String) : OpenResult → OpenResult
  | .aborted e => .aborted e
  | .done ws os f t => .done (m :: ws) os f t

/-- Prepend an appended response set. -/
def prependOpened (c : Option Store) : OpenResult → OpenResult
  | .aborted e => .aborted e
  | .done ws os f t => .done ws (c :: os) f t

/-- The `Series` fan-out open loop (proxy.go, `for _, st := range stores`):
each store's `newAsyncRespSet` outcome is given; on failure the counters are
bumped and the partial-response policy decides between returning the error,
sending a warning and continuing, and (under `group_replica`) consulting
`checkGroupReplicaErrors` — where a tolerated failure falls through and
appends the nil response set. -/
def openLoop (grs : CMap) (strat : Strategy) (disabled : Bool) :
    List (Store × OpenOutcome) → CMap → Nat → OpenResult
  | [], failed, tf => .done [] [] failed tf
  | (st, .success) :: rest, failed, tf =>
    prependOpened (some st) (openLoop grs strat disabled rest failed tf)
  | (st, .failure msg) :: rest, failed, tf =>
    let failed' := bumpCounter st.groupKey st.replicaKey failed
    let tf' := tf + 1
    if strat = .groupReplica then
      if checkGroupReplicaErrors grs failed' st.groupKey st.replicaKey then
        .aborted msg
      else prependOpened none (openLoop grs strat disabled rest failed' tf')
    else if !disabled || strat = .warn then
      prependWarning msg (openLoop grs strat disabled rest failed' tf')
    else .aborted msg

/-- One response pulled from the merged stream: `warning` is
`resp.GetWarning()` (empty for series/hints responses), `payload` stands for
the rest of the response body. -/
structure MResp where
  warning : String
  payload : Nat
deriving DecidableEq

/-- gRPC status codes the proxy surfaces, plus `transport` for raw errors
returned unchanged. -/
inductive ECode
  | aborted
  | invalidArgument
  | unknown
  | transport
deriving DecidableEq

/-- Result of the merged-stream forwarding loop. -/
inductive RespResult
  | errorOut (code : ECode) (msg : String)
  | finished (sent : List MResp) (totalFailed : Nat)
deriving DecidableEq

/-- Prepend a response forwarded to the caller. -/
def prependSent (r : MResp) : RespResult → RespResult
  | .errorOut c m => .errorOut c m
  | .finished s t => .finished (r :: s) t

/-- The `Series` merged-stream loop (proxy.go, `for respHeap.Next()`): every
warning response bumps `totalFailedStores`; under `group_replica` the request
aborts with `codes.Aborted` once that counter exceeds one, under
`abort`-or-disabled it aborts immediately, and otherwise the warning is
forwarded like any other response. -/
def respLoop (strat : Strategy) (disabled : Bool) :
    List MResp → Nat → RespResult
  | [], tf => .finished [] tf
  | r :: rest, tf =>
    if r.warning ≠ "" then
      let tf' := tf + 1
      if strat = .groupReplica then
        if tf' > 1 then .errorOut .aborted r.warning
        else prependSent r (respLoop strat disabled rest tf')
      else if disabled = true ∨ strat = .abort then .errorOut .aborted r.warning
      else prependSent r (respLoop strat disabled rest tf')
    else prependSent r (respLoop strat disabled rest tf)

/-- Overall result of a `Series` call: an error status or the sequence of
responses sent on the outbound stream. -/
inductive SeriesResult
  | err (code : ECode) (msg : String)
  | ok (sent : List MResp)

/-- The `Series` handler: preamble and selection (`seriesSelect`), eligible
counter initialisation, the fan-out open loop, then the merged-stream loop,
with `totalFailedStores` carried from the former into the latter. The opener
outcome per store and the merger (loser tree plus deduplicator, outside the
translated sources) are oracles. -/
def seriesRun (sel : Labels) (dm : List (List Matcher))
    (tsdbSel : List Labels → Bool) (mint maxt : Int) (ms : List Matcher)
    (stores : List Store) (strat : Strategy) (disabled : Bool)
    (outcome : Store → OpenOutcome)
    (merge : List (Option Store) → List MResp) : SeriesResult :=
  match seriesSelect sel dm tsdbSel mint maxt ms stores with
  | .invalidArgument msg => .err .invalidArgument msg
  | .emptyOk => .ok []
  | .query targets _ =>
    let grs := buildCounter (targets.map (fun st => (st.groupKey, st.replicaKey)))
    match openLoop grs strat disabled (targets.map (fun st => (st, outcome st))) [] 0 with
    | .aborted msg => .err .transport msg
    | .done warnings opened _ tf =>
      match respLoop strat disabled (merge opened) tf with
      | .errorOut c m => .err c m
      | .finished sent _ => .ok (warnings.map (fun w => ⟨w, 0⟩) ++ sent)

/-- The Go `math.MaxInt64` constant that `Info` uses to seed its minimum. -/
def int64Max : Int := 9223372036854775807

/-- Modelled from the spec: `labelpb.ExtendSortedLabels`, the label-set merge
used by `Info` but not among the translated sources — an element-wise merge
of a backend label set with the selector labels in which the selector's value
wins on a name conflict. -/
def extendSortedLabels (base ext : Labels) : Labels :=
  base.filter (fun p => !labelsHas ext p.1) ++ ext

/-- Insert into a duplicate-free accumulator (the Go hash-keyed map dedup). -/
def insNew {α : Type} [DecidableEq α] (acc : List α) (a : α) : List α :=
  if a ∈ acc then acc else acc ++ [a]

/-- The deduplicated union, over all backends and each of their label sets,
of the label set merged with the selector labels (`Info`'s `labelSets` map). -/
def infoUnion (selector : Labels) (stores : List Store) : List Labels :=
  stores.foldl
    (fun acc st =>
      st.labelSets.foldl (fun a l => insNew a (extendSortedLabels l selector)) acc)
    []

/-- The `InfoResponse` fields the proxy fills in. -/
structure InfoResp where
  labels : Labels
  minTime : Int
  maxTime : Int
  labelSets : List Labels
deriving DecidableEq

/-- `Info` (proxy.go): with no backends the time range is `[0,0]` and the
early return leaves `label_sets` empty; otherwise the minimum seeds at
`math.MaxInt64` and the maximum at `0`, the label-set union is computed, and
an empty union with non-empty selector labels announces the selector as the
single label set. -/
def infoResponse (selector : Labels) (stores : List Store) : InfoResp :=
  if stores.isEmpty then
    { labels := selector, minTime := 0, maxTime := 0, labelSets := [] }
  else
    let minT := stores.foldl (fun acc st => if st.minT < acc then st.minT else acc) int64Max
    let maxT := stores.foldl (fun acc st => if st.maxT > acc then st.maxT else acc) 0
    let u := infoUnion selector stores
    { labels := selector, minTime := minT, maxTime := maxT,
      labelSets := if u.isEmpty && !selector.isEmpty then [selector] else u }

/-- Insert a string keeping the list sorted (helper for the merge below). -/
def insSorted (x : String) : List String → List String
  | [] => [x]
  | y :: ys => if x ≤ y then x :: y :: ys else y :: insSorted x ys

/-- Modelled from the spec: `strutil.MergeUnsortedSlices`, not among the
translated sources — the set-union of the string slices with lexicographic
sort. -/
def mergeUnsortedSlices (ll : List (List String)) : List String :=
  (ll.flatten.foldr insSorted []).dedup

/-- Outcome of a `LabelValues` call. -/
inductive LVOut
  | invalidArgument (msg : String)
  | failed (msg : String)
  | ok (values : List String) (warnings : List String)

/-- The `LabelValues` fan-out over the filtered stores (sequentialised
errgroup): a sub-error fails the whole call when partial responses are
disabled and becomes a warning otherwise. Returns the outcome and the list
of contacted backends. -/
def lvLoop (disabled : Bool)
    (call : Store → Except String (List String × List String)) :
    List Store → List (List String) → List String → List Store →
    LVOut × List Store
  | [], vals, warns, contacted => (.ok (mergeUnsortedSlices vals) warns, contacted)
  | st :: rest, vals, warns, contacted =>
    match call st with
    | .error e =>
      if disabled then (.failed e, contacted ++ [st])
      else lvLoop disabled call rest vals (warns ++ [e]) (contacted ++ [st])
    | .ok (vs, ws) =>
      lvLoop disabled call rest (vals ++ [vs]) (warns ++ ws) (contacted ++ [st])

/-- `LabelValues` (proxy.go): an empty label name is rejected with
`codes.InvalidArgument` before the backend snapshot is taken; otherwise the
snapshot is filtered (`storeMatches` with no matchers, plus the TSDB
selector) and the fan-out runs. The snapshot is a thunk, as `s.stores()` is
only invoked past the guard; the per-store call result is an oracle. -/
def labelValues (label : String) (start stop : Int)
    (dm : List (List Matcher)) (tsdbSel : List Labels → Bool)
    (disabled : Bool) (snapshot : Unit → List Store)
    (call : Store → Except String (List String × List String)) :
    LVOut × List Store :=
  if label = "" then
    (.invalidArgument "label name parameter cannot be empty", [])
  else
    let sts := (snapshot ()).filter
      (fun st => storeMatches dm st start stop [] && tsdbSel st.labelSets)
    lvLoop disabled call sts [] [] []

/-- Concrete backend: replica `g-0` of group `g`. -/
def stG0 : Store :=
  { labelSets := [], minT := 0, maxT := 100, addr := "10.0.0.1:9090",
    isLocal := false, groupKey := "g", replicaKey := "g-0" }

/-- Concrete backend: replica `g-1` of group `g`. -/
def stG1 : Store :=
  { labelSets := [], minT := 0, maxT := 100, addr := "10.0.0.2:9090",
    isLocal := false, groupKey := "g", replicaKey := "g-1" }

/-- Concrete backend: the sole replica `h-0` of group `h`. -/
def stH0 : Store :=
  { labelSets := [], minT := 0, maxT := 100, addr := "10.0.0.3:9090",
    isLocal := false, groupKey := "h", replicaKey := "h-0" }

/-- Concrete backend whose whole time range is negative. -/
def stNeg : Store :=
  { labelSets := [], minT := -5, maxT := -1, addr := "10.0.0.4:9090",
    isLocal := false, groupKey := "n", replicaKey := "n-0" }

/-- Concrete backend with time range `[100,200]` and no label sets. -/
def stA : Store :=
  { labelSets := [], minT := 100, maxT := 200, addr := "10.0.0.5:9090",
    isLocal := false, groupKey := "a", replicaKey := "a-0" }

/-- Concrete backend with time range `[150,300]` and no label sets. -/
def stB : Store :=
  { labelSets := [], minT := 150, maxT := 300, addr := "10.0.0.6:9090",
    isLocal := false, groupKey := "b", replicaKey := "b-0" }

/-- Unfolding equation: `labelSetsMatch` on a non-empty label-set list. -/
lemma labelSetsMatch_cons (ms : List Matcher) (l : Labels) (rest : List Labels) :
    labelSetsMatch ms (l :: rest) =
      (l :: rest).any (fun ls =>
        !(ms.any (fun m => labelsHas ls m.name && !(m.accepts (labelsGet ls m.name))))) := rfl

/-- A label set is not failed by any of the matchers: every matcher whose
name the set carries accepts the stored value. -/
lemma not_failed_iff (ms : List Matcher) (ls : Labels) :
    (!(ms.any (fun m => labelsHas ls m.name && !(m.accepts (labelsGet ls m.name))))) = true ↔
      ∀ m ∈ ms, labelsHas ls m.name = true → m.accepts (labelsGet ls m.name) = true := by
  rw [Bool.not_eq_true']
  rw [← Bool.not_eq_true, List.any_eq_true]
  push_neg
  constructor
  · intro h m hm hhas
    have hmm := h m hm
    rw [Ne, Bool.and_eq_true, Bool.not_eq_true'] at hmm
    push_neg at hmm
    have := hmm hhas
    simpa using this
  · intro h m hm
    rw [Ne, Bool.and_eq_true, Bool.not_eq_true']
    push_neg
    intro hhas
    simp [h m hm hhas]

/-- Characterisation of `labelSetsMatch` (shared helper). -/
lemma labelSetsMatch_iff_core (ms : List Matcher) (lsets : List Labels) :
    labelSetsMatch ms lsets = true ↔
      lsets = [] ∨ ∃ ls ∈ lsets, ∀ m ∈ ms,
        labelsHas ls m.name = true → m.accepts (labelsGet ls m.name) = true := by
  rcases lsets with _ | ⟨l, rest⟩
  · simp [labelSetsMatch]
  · rw [labelSetsMatch_cons, List.any_eq_true]
    constructor
    · rintro ⟨ls, hmem, hf⟩
      exact Or.inr ⟨ls, hmem, (not_failed_iff ms ls).mp hf⟩
    · rintro (h | ⟨ls, hmem, hok⟩)
      · exact absurd h (List.cons_ne_nil l rest)
      · exact ⟨ls, hmem, (not_failed_iff ms ls).mpr hok⟩

/-- C7: `labelSetsMatch` accepts iff the label-set list is empty or some
label set is not failed by any matcher — a matcher failing a set iff the set
has the matcher's name and the stored value does not satisfy it. -/
theorem labelSetsMatch_accepts_iff (ms : List Matcher) (lsets : List Labels) :
    labelSetsMatch ms lsets = true ↔
      lsets = [] ∨ ∃ ls ∈ lsets, ∀ m ∈ ms,
        labelsHas ls m.name = true → m.accepts (labelsGet ls m.name) = true :=
  labelSetsMatch_iff_core ms lsets

/-- A matcher group accepts the singleton address label set iff every
matcher in it that names `__address__` accepts the address. -/
lemma labelSetsMatch_address (sm : List Matcher) (addr : String) :
    labelSetsMatch sm [[("__address__", addr)]] = true ↔
      ∀ m ∈ sm, m.name = "__address__" → m.accepts addr = true := by
  rw [labelSetsMatch_iff_core]
  constructor
  · rintro (h | ⟨ls, hls, hok⟩)
    · exact absurd h (List.cons_ne_nil _ _)
    · intro m hm hname
      have hls' : ls = [("__address__", addr)] := by simpa using hls
      have hmk := hok m hm
      rw [hls'] at hmk
      have hh : labelsHas [("__address__", addr)] m.name = true := by
        simp [labelsHas, hname]
      have := hmk hh
      simpa [labelsGet, hname] using this
  · intro h
    refine Or.inr ⟨[("__address__", addr)], by simp, ?_⟩
    intro m hm hhas
    have hname : m.name = "__address__" := by
      have := hhas
      simp only [labelsHas, List.any_cons, List.any_nil, Bool.or_false] at this
      exact (beq_iff_eq.mp this).symm
    have := h m hm hname
    simpa [labelsGet, hname] using this

/-- Unfolding equation: the debug filter with matcher groups present and a
remote store. -/
lemma storeMatchDebugMetadata_cons (g0 : List Matcher) (gs : List (List Matcher))
    (addr : String) :
    storeMatchDebugMetadata (g0 :: gs) addr false =
      (g0 :: gs).any (fun sm => labelSetsMatch sm [[("__address__", addr)]]) := rfl

/-- C8: the debug address filter — with no matcher groups every store is
kept; with matcher groups present, local stores are rejected and a remote
store is kept iff its address satisfies every matcher of some group, where
an address satisfies a matcher iff the matcher either names a label other
than `__address__` or accepts the address. -/
theorem storeMatchDebugMetadata_iff (dm : List (List Matcher)) (addr : String)
    (isLocal : Bool) :
    storeMatchDebugMetadata dm addr isLocal = true ↔
      dm = [] ∨ (isLocal = false ∧ ∃ g ∈ dm, ∀ m ∈ g,
        m.name = "__address__" → m.accepts addr = true) := by
  rcases dm with _ | ⟨g0, gs⟩
  · simp [storeMatchDebugMetadata]
  · cases isLocal
    · rw [storeMatchDebugMetadata_cons, List.any_eq_true]
      constructor
      · rintro ⟨sm, hsm, hmatch⟩
        exact Or.inr ⟨rfl, sm, hsm, (labelSetsMatch_address sm addr).mp hmatch⟩
      · rintro (h | ⟨-, sm, hsm, hok⟩)
        · exact absurd h (List.cons_ne_nil g0 gs)
        · exact ⟨sm, hsm, (labelSetsMatch_address sm addr).mpr hok⟩
    · constructor
      · intro h
        exact absurd h (by simp [storeMatchDebugMetadata])
      · rintro (h | ⟨h, -⟩)
        · exact absurd h (List.cons_ne_nil g0 gs)
        · exact absurd h (by simp)

/-- C10: a `LabelValues` request with an empty label name is rejected with
`codes.InvalidArgument` for every snapshot thunk and every per-store call
oracle — so the result neither consults the snapshot nor contacts any
backend (the contacted list is empty). -/
theorem labelValues_empty_label (start stop : Int) (dm : List (List Matcher))
    (tsdbSel : List Labels → Bool) (disabled : Bool)
    (snapshot : Unit → List Store)
    (call : Store → Except String (List String × List String)) :
    labelValues "" start stop dm tsdbSel disabled snapshot call =
      (.invalidArgument "label name parameter cannot be empty", []) := by
  simp [labelValues]

/-- Keys of a group's replica counters after an inner bump. -/
lemma bumpInner_keys (inner : List (String × Nat)) (k : String) :
    (bumpInner inner k).map Prod.fst =
      if k ∈ inner.map Prod.fst then inner.map Prod.fst
      else inner.map Prod.fst ++ [k] := by
  induction inner with
  | nil => simp [bumpInner]
  | cons p rest ih =>
    obtain ⟨k', v⟩ := p
    by_cases h : k' = k
    · subst h
      simp [bumpInner]
    · simp only [bumpInner, if_neg h, List.map_cons]
      rw [ih]
      by_cases hk : k ∈ rest.map Prod.fst
      · simp [hk, Ne.symm h]
      · simp [hk, Ne.symm h]

lemma bumpInner_lookup_same (inner : List (String × Nat)) (k : String) :
    lookupD (bumpInner inner k) k 0 = lookupD inner k 0 + 1 := by
  induction inner with
  | nil => simp [bumpInner, lookupD]
  | cons p rest ih =>
    obtain ⟨k', v⟩ := p
    by_cases h : k' = k
    · subst h
      simp [bumpInner, lookupD, List.find?]
    · simp only [bumpInner, if_neg h]
      simp only [lookupD, List.find?_cons]
      have : (k' == k) = false := by simpa using h
      simp only [this]
      exact ih

lemma bumpInner_lookup_other (inner : List (String × Nat)) (k x : String)
    (hx : x ≠ k) :
    lookupD (bumpInner inner k) x 0 = lookupD inner x 0 := by
  induction inner with
  | nil => simp [bumpInner, lookupD, List.find?, (by simpa using hx.symm : (k == x) = false)]
  | cons p rest ih =>
    obtain ⟨k', v⟩ := p
    by_cases h : k' = k
    · subst h
      have hne : (k' == x) = false := by
        simp only [beq_eq_false_iff_ne, ne_eq]
        exact fun hh => hx hh.symm
      simp [bumpInner, lookupD, List.find?_cons, hne]
    · simp only [bumpInner, if_neg h]
      simp only [lookupD, List.find?_cons]
      by_cases h2 : k' = x
      · subst h2; simp
      · have : (k' == x) = false := by simpa using h2
        simp only [this]
        exact ih

lemma bumpCounter_lookup_same (mp : CMap) (g r : String) :
    lookupD (bumpCounter g r mp) g [] = bumpInner (lookupD mp g []) r := by
  induction mp with
  | nil => simp [bumpCounter, lookupD, List.find?, bumpInner]
  | cons p rest ih =>
    obtain ⟨g', inner⟩ := p
    by_cases h : g' = g
    · subst h
      simp [bumpCounter, lookupD, List.find?_cons]
    · have hne : (g' == g) = false := by simpa using h
      simp only [bumpCounter, if_neg h, lookupD, List.find?_cons, hne]
      exact ih

lemma bumpCounter_lookup_other (mp : CMap) (g r x : String) (hx : x ≠ g) :
    lookupD (bumpCounter g r mp) x [] = lookupD mp x [] := by
  induction mp with
  | nil =>
    have hne : (g == x) = false := by
      simp only [beq_eq_false_iff_ne, ne_eq]
      exact fun hh => hx hh.symm
    simp [bumpCounter, lookupD, List.find?, hne]
  | cons p rest ih =>
    obtain ⟨g', inner⟩ := p
    by_cases h : g' = g
    · subst h
      have hne : (g' == x) = false := by
        simp only [beq_eq_false_iff_ne, ne_eq]
        exact fun hh => hx hh.symm
      simp [bumpCounter, lookupD, List.find?_cons, hne]
    · simp only [bumpCounter, if_neg h, lookupD, List.find?_cons]
      by_cases h2 : g' = x
      · subst h2; simp
      · have hne : (g' == x) = false := by simpa using h2
        simp only [hne]
        exact ih

lemma replicaCount_bump (mp : CMap) (g r x y : String) :
    replicaCount (bumpCounter g r mp) x y =
      replicaCount mp x y + (if x = g ∧ y = r then 1 else 0) := by
  by_cases hx : x = g
  · subst hx
    rw [replicaCount, bumpCounter_lookup_same]
    by_cases hy : y = r
    · subst hy
      simp [bumpInner_lookup_same, replicaCount]
    · rw [bumpInner_lookup_other _ _ _ hy]
      simp [replicaCount, hy]
  · rw [replicaCount, bumpCounter_lookup_other _ _ _ _ hx]
    simp [replicaCount, hx]

lemma mem_keys_bump (mp : CMap) (g r x : String) :
    x ∈ (lookupD (bumpCounter g r mp) g []).map Prod.fst ↔
      x ∈ (lookupD mp g []).map Prod.fst ∨ x = r := by
  rw [bumpCounter_lookup_same, bumpInner_keys]
  split_ifs with hr
  · constructor
    · exact Or.inl
    · rintro (h | h)
      · exact h
      · exact h ▸ hr
  · simp [List.mem_append]

lemma fold_mem (evs : List (String × String)) (m0 : CMap) (g x : String) :
    x ∈ (lookupD (evs.foldl (fun m e => bumpCounter e.1 e.2 m) m0) g []).map Prod.fst ↔
      x ∈ (lookupD m0 g []).map Prod.fst ∨ (g, x) ∈ evs := by
  induction evs generalizing m0 with
  | nil => simp
  | cons e evs ih =>
    obtain ⟨eg, er⟩ := e
    rw [List.foldl_cons, ih]
    by_cases h : eg = g
    · subst h
      rw [mem_keys_bump]
      simp only [List.mem_cons, Prod.mk.injEq, true_and]
      tauto
    · rw [bumpCounter_lookup_other _ _ _ _ (fun hh => h hh.symm)]
      simp only [List.mem_cons, Prod.mk.injEq]
      have : ¬ (g = eg) := fun hh => h hh.symm
      tauto

lemma fold_nodup (evs : List (String × String)) (m0 : CMap) (g : String)
    (h0 : ((lookupD m0 g []).map Prod.fst).Nodup) :
    ((lookupD (evs.foldl (fun m e => bumpCounter e.1 e.2 m) m0) g []).map Prod.fst).Nodup := by
  induction evs generalizing m0 with
  | nil => exact h0
  | cons e evs ih =>
    rw [List.foldl_cons]
    apply ih
    obtain ⟨eg, er⟩ := e
    by_cases h : eg = g
    · subst h
      rw [bumpCounter_lookup_same, bumpInner_keys]
      split_ifs with hr
      · exact h0
      · simp [List.nodup_append, h0, hr]
    · rw [bumpCounter_lookup_other _ _ _ _ (fun hh => h hh.symm)]
      exact h0

lemma fold_count (evs : List (String × String)) (m0 : CMap) (g r : String) :
    replicaCount (evs.foldl (fun m e => bumpCounter e.1 e.2 m) m0) g r =
      replicaCount m0 g r + evs.count (g, r) := by
  induction evs generalizing m0 with
  | nil => simp
  | cons e evs ih =>
    rw [List.foldl_cons, ih, replicaCount_bump, List.count_cons]
    obtain ⟨eg, er⟩ := e
    by_cases h : eg = g ∧ er = r
    · obtain ⟨h1, h2⟩ := h
      subst h1; subst h2
      simp
      omega
    · have hne : ¬ ((eg, er) = (g, r)) := by
        simp only [Prod.mk.injEq]
        exact h
      have hne2 : ¬ (g = eg ∧ r = er) := fun ⟨a, b⟩ => h ⟨a.symm, b.symm⟩
      simp [hne, hne2]

lemma groupSize_buildCounter (evs : List (String × String)) (g : String) :
    groupSize (buildCounter evs) g = distinctReplicas evs g := by
  have hnd : ((lookupD (buildCounter evs) g []).map Prod.fst).Nodup := by
    apply fold_nodup
    simp [lookupD, List.find?]
  have hmem : ∀ x, x ∈ (lookupD (buildCounter evs) g []).map Prod.fst ↔ (g, x) ∈ evs := by
    intro x
    rw [buildCounter] at *
    rw [fold_mem]
    simp [lookupD, List.find?]
  have hlen : groupSize (buildCounter evs) g =
      ((lookupD (buildCounter evs) g []).map Prod.fst).length := by
    rw [groupSize, List.length_map]
  rw [hlen, ← List.toFinset_card_of_nodup hnd, distinctReplicas]
  congr 1
  ext x
  simp only [List.mem_toFinset, hmem, List.mem_map, List.mem_filter, beq_iff_eq]
  constructor
  · intro hx
    exact ⟨(g, x), ⟨hx, rfl⟩, rfl⟩
  · rintro ⟨⟨a, b⟩, ⟨hab, h1⟩, h2⟩
    simp only at h1 h2
    subst h1; subst h2
    exact hab

lemma replicaCount_buildCounter (evs : List (String × String)) (g r : String) :
    replicaCount (buildCounter evs) g r = evs.count (g, r) := by
  rw [buildCounter, fold_count]
  simp [replicaCount, lookupD, List.find?]

/-- C3: the group-replica open-time check, on counter maps built from the
eligible-store bump events and the failure bump events, aborts the request
iff more than one distinct replica of the failing store's group has failed,
or that group has exactly one distinct eligible replica and the failing
replica has failed more than once; in every other case it tolerates the
failure. -/
theorem checkGroupReplicaErrors_iff (elig failedEvs : List (String × String)) (g r : String) :
    checkGroupReplicaErrors (buildCounter elig) (buildCounter failedEvs) g r = true ↔
      1 < distinctReplicas failedEvs g ∨
      (distinctReplicas elig g = 1 ∧ 1 < failedEvs.count (g, r)) := by
  unfold checkGroupReplicaErrors
  rw [groupSize_buildCounter, groupSize_buildCounter, replicaCount_buildCounter]
  split_ifs with h1 h2
  · simp only [true_iff]
    exact Or.inl h1
  · simp only [true_iff]
    exact Or.inr h2
  · simp only [Bool.false_eq_true, false_iff, not_or]
    exact ⟨h1, h2⟩

/-- C1 (counterexample): with policy `abort` but the
`partial_response_disabled` flag unset, an open-time failure does not return
the error — the loop sends a warning and completes, because the source warns
whenever the flag is unset or the policy is `warn`. -/
theorem series_open_abort_policy_counterexample :
    openLoop [] .abort false [(stG0, .failure "connection refused")] [] 0 =
      .done ["connection refused"] [] [("g", [("g-0", 1)])] 1 ∧
    isAbortedO (openLoop [] .abort false
      [(stG0, .failure "connection refused")] [] 0) = false := by
  constructor <;> rfl

/-- C1 (amended): for a policy other than `group_replica`, an open-time
failure returns the error iff `partial_response_disabled` is set and the
policy is not `warn`; otherwise (flag unset, or policy `warn`) exactly one
warning response is emitted for that backend and the loop continues with the
remaining backends, with the failure counters bumped. -/
theorem series_open_failure_policy (grs : CMap) (strat : Strategy)
    (disabled : Bool) (st : Store) (msg : String)
    (rest : List (Store × OpenOutcome)) (failed : CMap) (tf : Nat)
    (hg : strat ≠ .groupReplica) :
    (disabled = true → strat ≠ .warn →
      openLoop grs strat disabled ((st, .failure msg) :: rest) failed tf =
        .aborted msg) ∧
    ((disabled = false ∨ strat = .warn) →
      openLoop grs strat disabled ((st, .failure msg) :: rest) failed tf =
        prependWarning msg (openLoop grs strat disabled rest
          (bumpCounter st.groupKey st.replicaKey failed) (tf + 1))) := by
  constructor
  · intro hd hw
    subst hd
    simp [openLoop, hg, hw]
  · intro h
    rcases h with h | h
    · subst h
      simp [openLoop, hg]
    · subst h
      simp [openLoop, hg]

/-- C1 (witness): with the flag set and policy `abort`, the open loop
returns the error. -/
theorem series_open_failure_policy_witness :
    openLoop [] .abort true [(stG0, .failure "boom")] [] 0 = .aborted "boom" :=
  (series_open_failure_policy [] .abort true stG0 "boom" [] [] 0
    (by decide)).1 rfl (by decide)

/-- C2: for a warning response pulled from the merged stream — under policy
`abort` or with `partial_response_disabled` set (policy not
`group_replica`), the loop aborts with `codes.Aborted`; under
`group_replica` the total-failure counter is incremented and the loop aborts
with `codes.Aborted` iff the incremented counter exceeds one, forwarding and
continuing otherwise; under `warn` with the flag unset the warning is
forwarded and streaming continues. -/
theorem series_stream_warning_policy (strat : Strategy) (disabled : Bool)
    (r : MResp) (rest : List MResp) (tf : Nat) (hw : r.warning ≠ "") :
    ((disabled = true ∨ strat = .abort) → strat ≠ .groupReplica →
      respLoop strat disabled (r :: rest) tf = .errorOut .aborted r.warning) ∧
    (strat = .groupReplica →
      (1 < tf + 1 →
        respLoop strat disabled (r :: rest) tf = .errorOut .aborted r.warning) ∧
      (tf = 0 → respLoop strat disabled (r :: rest) tf =
        prependSent r (respLoop strat disabled rest (tf + 1)))) ∧
    (strat = .warn → disabled = false →
      respLoop strat disabled (r :: rest) tf =
        prependSent r (respLoop strat disabled rest (tf + 1))) := by
  refine ⟨?_, ?_, ?_⟩
  · intro hd hg
    simp [respLoop, hw, hg, hd]
  · intro hg
    subst hg
    constructor
    · intro htf
      simp [respLoop, hw, htf]
    · intro htf
      subst htf
      simp [respLoop, hw]
  · intro hg hd
    subst hg
    subst hd
    simp [respLoop, hw]

/-- C2 (witness): under policy `warn`, a warning response is forwarded and
the loop continues with the counter bumped. -/
theorem series_stream_warning_policy_witness :
    respLoop .warn false [⟨"w", 0⟩] 0 =
      prependSent ⟨"w", 0⟩ (respLoop .warn false [] 1) :=
  (series_stream_warning_policy .warn false ⟨"w", 0⟩ [] 0 (by decide)).2.2
    rfl rfl

/-- C4 (counterexample): policy `group_replica`, eligible groups
`g → {g-0, g-1}` and `h → {h-0}`; `g-0` fails at open time, then `h-0` fails
at open time — the open loop does not abort: both failures are tolerated by
`checkGroupReplicaErrors` (the solitary group has only one failed replica,
with a single failure). -/
theorem series_group_replica_solitary_counterexample :
    isAbortedO (openLoop
      (buildCounter [("g", "g-0"), ("g", "g-1"), ("h", "h-0")])
      .groupReplica false
      [(stG0, .failure "g-0 down"), (stG1, .success), (stH0, .failure "h-0 down")]
      [] 0) = false := by decide

/-- C4 (amended): in the S6 scenario both open-time failures are tolerated
and the request is not aborted — the loop completes with no warning sent,
the nil response set appended for each tolerated failure, both failures
recorded once, and two total failures counted. -/
theorem series_group_replica_solitary_tolerated :
    openLoop (buildCounter [("g", "g-0"), ("g", "g-1"), ("h", "h-0")])
      .groupReplica false
      [(stG0, .failure "g-0 down"), (stG1, .success), (stH0, .failure "h-0 down")]
      [] 0 =
      .done [] [none, some stG1, none]
        [("g", [("g-0", 1)]), ("h", [("h-0", 1)])] 2 := by decide

/-- A matcher inconsistent with the selector labels makes the reduction
report a mismatch. -/
lemma matchesExternalLabels_false (ms : List Matcher) (sel : Labels)
    (h : ms.any (fun m =>
      labelsHas sel m.name && !(m.accepts (labelsGet sel m.name))) = true) :
    (matchesExternalLabels ms sel).1 = false := by
  obtain ⟨m, hm, hf⟩ := List.any_eq_true.mp h
  rw [Bool.and_eq_true, Bool.not_eq_true'] at hf
  rw [matchesExternalLabels]
  rw [← Bool.not_eq_true, List.all_eq_true]
  push_neg
  refine ⟨m, hm, ?_⟩
  simp [hf.1, hf.2]

/-- When every matcher names a selector label and accepts its value, the
reduction succeeds with an empty reduced list. -/
lemma matchesExternalLabels_stripped (ms : List Matcher) (sel : Labels)
    (h : ms.all (fun m =>
      labelsHas sel m.name && m.accepts (labelsGet sel m.name)) = true) :
    (matchesExternalLabels ms sel).1 = true ∧
      (matchesExternalLabels ms sel).2 = [] := by
  rw [List.all_eq_true] at h
  constructor
  · rw [matchesExternalLabels, List.all_eq_true]
    intro m hm
    have := h m hm
    rw [Bool.and_eq_true] at this
    simp [this.1, this.2]
  · rw [matchesExternalLabels]
    rw [List.filter_eq_nil_iff]
    intro m hm
    have := h m hm
    rw [Bool.and_eq_true] at this
    simp [this.1]

/-- C5: reducing the request matchers against the selector labels decides
the `Series` preamble — if some matcher names a selector label and rejects
its value, `Series` returns an empty success; if instead each matcher names
a selector label and accepts its value (so that stripping leaves no
matcher), `Series` returns `codes.InvalidArgument`; in both cases no backend
is contacted. -/
theorem series_selector_preamble (sel : Labels) (dm : List (List Matcher))
    (tsdbSel : List Labels → Bool) (mint maxt : Int) (ms : List Matcher)
    (stores : List Store) (strat : Strategy) (disabled : Bool)
    (outcome : Store → OpenOutcome)
    (merge : List (Option Store) → List MResp)
    (h : ms.any (fun m =>
        labelsHas sel m.name && !(m.accepts (labelsGet sel m.name))) = true ∨
      ms.all (fun m =>
        labelsHas sel m.name && m.accepts (labelsGet sel m.name)) = true) :
    (seriesSelect sel dm tsdbSel mint maxt ms stores =
      if ms.any (fun m =>
          labelsHas sel m.name && !(m.accepts (labelsGet sel m.name))) then
        .emptyOk
      else .invalidArgument "no matchers specified (excluding selector labels)") ∧
    contactedStores (seriesSelect sel dm tsdbSel mint maxt ms stores) = [] ∧
    seriesRun sel dm tsdbSel mint maxt ms stores strat disabled outcome merge =
      (if ms.any (fun m =>
          labelsHas sel m.name && !(m.accepts (labelsGet sel m.name))) then
        .ok []
      else .err .invalidArgument "no matchers specified (excluding selector labels)") := by
  by_cases hany : ms.any (fun m =>
      labelsHas sel m.name && !(m.accepts (labelsGet sel m.name))) = true
  · have hsel : seriesSelect sel dm tsdbSel mint maxt ms stores = .emptyOk := by
      have hf := matchesExternalLabels_false ms sel hany
      simp [seriesSelect, hf]
    refine ⟨?_, ?_, ?_⟩
    · rw [hsel, if_pos hany]
    · rw [hsel]; rfl
    · rw [seriesRun, hsel, if_pos hany]
  · have hall : ms.all (fun m =>
        labelsHas sel m.name && m.accepts (labelsGet sel m.name)) = true := by
      rcases h with h | h
      · exact absurd h hany
      · exact h
    obtain ⟨h1, h2⟩ := matchesExternalLabels_stripped ms sel hall
    have hsel : seriesSelect sel dm tsdbSel mint maxt ms stores =
        .invalidArgument "no matchers specified (excluding selector labels)" := by
      simp [seriesSelect, h1, h2]
    refine ⟨?_, ?_, ?_⟩
    · rw [hsel, if_neg hany]
    · rw [hsel]; rfl
    · rw [seriesRun, hsel, if_neg hany]

/-- C5 (witness): S3 — selector `{env="prod"}`, single matcher `env="dev"`:
the request is rejected with an empty success and contacts no backend. -/
theorem series_selector_preamble_witness :
    seriesSelect [("env", "prod")] [] (fun _ => true) 0 100
        [⟨"env", fun v => v == "dev"⟩] [] = .emptyOk ∧
    contactedStores (seriesSelect [("env", "prod")] [] (fun _ => true) 0 100
        [⟨"env", fun v => v == "dev"⟩] []) = [] := by
  have h := series_selector_preamble [("env", "prod")] [] (fun _ => true) 0 100
    [⟨"env", fun v => v == "dev"⟩] [] .warn false (fun _ => .success)
    (fun _ => []) (Or.inl (by decide))
  exact ⟨h.1.trans (by rfl), h.2.1⟩

/-- C6: the time-overlap gate of `storeMatches` keeps a backend iff
`request.min_time ≤ backend.max_time` and `request.max_time ≥
backend.min_time` (with the debug and label filters applied after it); and
when the filters leave no backend, `Series` returns success with no
responses. -/
theorem series_time_filter (dm : List (List Matcher)) (st : Store)
    (mint maxt : Int) (ms : List Matcher) (sel : Labels)
    (tsdbSel : List Labels → Bool) (stores : List Store) (strat : Strategy)
    (disabled : Bool) (outcome : Store → OpenOutcome)
    (merge : List (Option Store) → List MResp) :
    (storeMatches dm st mint maxt ms =
      (decide (mint ≤ st.maxT) && decide (st.minT ≤ maxt) &&
        storeMatchDebugMetadata dm st.addr st.isLocal &&
        labelSetsMatch ms st.labelSets)) ∧
    ((matchesExternalLabels ms sel).1 = true →
      (matchesExternalLabels ms sel).2 ≠ [] →
      stores.filter (fun s =>
        storeMatches dm s mint maxt (matchesExternalLabels ms sel).2 &&
          tsdbSel s.labelSets) = [] →
      seriesSelect sel dm tsdbSel mint maxt ms stores = .emptyOk ∧
      seriesRun sel dm tsdbSel mint maxt ms stores strat disabled outcome
        merge = .ok []) := by
  constructor
  · by_cases h1 : mint > st.maxT ∨ maxt < st.minT
    · have hfalse : storeMatches dm st mint maxt ms = false := by
        simp [storeMatches, h1]
      rw [hfalse]
      rcases h1 with h | h
      · have : decide (mint ≤ st.maxT) = false :=
          decide_eq_false (not_le.mpr h)
        simp [this]
      · have : decide (st.minT ≤ maxt) = false :=
          decide_eq_false (not_le.mpr h)
        simp [this]
    · push_neg at h1
      have d1 : decide (mint ≤ st.maxT) = true := decide_eq_true h1.1
      have d2 : decide (st.minT ≤ maxt) = true := decide_eq_true h1.2
      have hnot : ¬(mint > st.maxT ∨ maxt < st.minT) := by
        push_neg
        exact h1
      cases hdm : storeMatchDebugMetadata dm st.addr st.isLocal
      · simp [storeMatches, hnot, hdm]
      · simp [storeMatches, hnot, hdm, d1, d2]
  · intro h1 h2 h3
    have hsel : seriesSelect sel dm tsdbSel mint maxt ms stores = .emptyOk := by
      have h2' : (matchesExternalLabels ms sel).2.isEmpty = false := by
        cases hm : (matchesExternalLabels ms sel).2 with
        | nil => exact absurd hm h2
        | cons a l => rfl
      simp [seriesSelect, h1, h2', h3]
    exact ⟨hsel, by rw [seriesRun, hsel]⟩

/-- C6 (witness): a backend inside the requested range passes the time gate
with the filter equation, and an empty survivor set yields an empty
success. -/
theorem series_time_filter_witness :
    seriesSelect [] [] (fun _ => true) 0 100 [⟨"x", fun _ => true⟩] [] =
      .emptyOk ∧
    seriesRun [] [] (fun _ => true) 0 100 [⟨"x", fun _ => true⟩] [] .warn
      false (fun _ => .success) (fun _ => []) = .ok [] :=
  (series_time_filter [] stG0 0 100 [⟨"x", fun _ => true⟩] [] (fun _ => true)
    [] .warn false (fun _ => .success) (fun _ => [])).2 rfl
    (List.cons_ne_nil _ _) rfl

/-- The running-minimum fold never exceeds its seed. -/
lemma foldMin_le_init (stores : List Store) (b : Int) :
    stores.foldl (fun acc st => if st.minT < acc then st.minT else acc) b ≤ b := by
  induction stores generalizing b with
  | nil => exact le_refl b
  | cons st rest ih =>
    rw [List.foldl_cons]
    refine le_trans (ih _) ?_
    by_cases h : st.minT < b
    · simp only [if_pos h]
      omega
    · simp [h]

/-- The running-minimum fold is a lower bound of every element. -/
lemma foldMin_le_mem (stores : List Store) (b : Int) (st : Store)
    (hst : st ∈ stores) :
    stores.foldl (fun acc s => if s.minT < acc then s.minT else acc) b ≤
      st.minT := by
  induction stores generalizing b with
  | nil => cases hst
  | cons hd rest ih =>
    rw [List.foldl_cons]
    rcases List.mem_cons.mp hst with h | h
    · subst h
      refine le_trans (foldMin_le_init rest _) ?_
      by_cases hlt : st.minT < b
      · simp [hlt]
      · simp only [if_neg hlt]
        omega
    · exact ih _ h

/-- The running-minimum fold returns its seed or an element. -/
lemma foldMin_mem_or_init (stores : List Store) (b : Int) :
    stores.foldl (fun acc s => if s.minT < acc then s.minT else acc) b = b ∨
      stores.foldl (fun acc s => if s.minT < acc then s.minT else acc) b ∈
        stores.map Store.minT := by
  induction stores generalizing b with
  | nil => exact Or.inl rfl
  | cons hd rest ih =>
    rw [List.foldl_cons]
    by_cases h : hd.minT < b
    · rcases ih hd.minT with h1 | h1
      · exact Or.inr (by simp [h, h1])
      · exact Or.inr (by simp [h]; right; simpa using h1)
    · rcases ih b with h1 | h1
      · exact Or.inl (by simpa [h] using h1)
      · exact Or.inr (by simp [h]; right; simpa [h] using h1)

/-- The running-maximum fold is at least its seed. -/
lemma foldMax_ge_init (stores : List Store) (b : Int) :
    b ≤ stores.foldl (fun acc st => if st.maxT > acc then st.maxT else acc) b := by
  induction stores generalizing b with
  | nil => exact le_refl b
  | cons st rest ih =>
    rw [List.foldl_cons]
    refine le_trans ?_ (ih _)
    by_cases h : st.maxT > b
    · simp only [if_pos h]
      omega
    · simp [h]

/-- The running-maximum fold is an upper bound of every element. -/
lemma foldMax_ge_mem (stores : List Store) (b : Int) (st : Store)
    (hst : st ∈ stores) :
    st.maxT ≤
      stores.foldl (fun acc s => if s.maxT > acc then s.maxT else acc) b := by
  induction stores generalizing b with
  | nil => cases hst
  | cons hd rest ih =>
    rw [List.foldl_cons]
    rcases List.mem_cons.mp hst with h | h
    · subst h
      refine le_trans ?_ (foldMax_ge_init rest _)
      by_cases hlt : st.maxT > b
      · simp [hlt]
      · simp only [if_neg hlt]
        omega
    · exact ih _ h

/-- The running-maximum fold returns its seed or an element. -/
lemma foldMax_mem_or_init (stores : List Store) (b : Int) :
    stores.foldl (fun acc s => if s.maxT > acc then s.maxT else acc) b = b ∨
      stores.foldl (fun acc s => if s.maxT > acc then s.maxT else acc) b ∈
        stores.map Store.maxT := by
  induction stores generalizing b with
  | nil => exact Or.inl rfl
  | cons hd rest ih =>
    rw [List.foldl_cons]
    by_cases h : hd.maxT > b
    · rcases ih hd.maxT with h1 | h1
      · exact Or.inr (by simp [h, h1])
      · exact Or.inr (by simp [h]; right; simpa using h1)
    · rcases ih b with h1 | h1
      · exact Or.inl (by simpa [h] using h1)
      · exact Or.inr (by simp [h]; right; simpa [h] using h1)

/-- Membership in the duplicate-free insert. -/
lemma mem_insNew {α : Type} [DecidableEq α] (acc : List α) (a x : α) :
    x ∈ insNew acc a ↔ x ∈ acc ∨ x = a := by
  rw [insNew]
  split_ifs with h
  · constructor
    · exact Or.inl
    · rintro (hx | hx)
      · exact hx
      · exact hx ▸ h
  · simp [List.mem_append]

/-- Membership after folding `insNew` over the label sets of one backend. -/
lemma mem_foldl_insNew (sel : Labels) (lsets : List Labels)
    (acc : List Labels) (x : Labels) :
    x ∈ lsets.foldl (fun a l => insNew a (extendSortedLabels l sel)) acc ↔
      x ∈ acc ∨ ∃ l ∈ lsets, x = extendSortedLabels l sel := by
  induction lsets generalizing acc with
  | nil => simp
  | cons hd rest ih =>
    rw [List.foldl_cons, ih, mem_insNew]
    simp only [List.mem_cons]
    constructor
    · rintro ((h | h) | ⟨l, hl, he⟩)
      · exact Or.inl h
      · exact Or.inr ⟨hd, Or.inl rfl, h⟩
      · exact Or.inr ⟨l, Or.inr hl, he⟩
    · rintro (h | ⟨l, hl | hl, he⟩)
      · exact Or.inl (Or.inl h)
      · exact Or.inl (Or.inr (hl ▸ he))
      · exact Or.inr ⟨l, hl, he⟩

/-- Membership in `Info`'s label-set union (generalised accumulator). -/
lemma mem_infoUnion_aux (sel : Labels) (stores : List Store)
    (acc : List Labels) (x : Labels) :
    x ∈ stores.foldl
        (fun acc st => st.labelSets.foldl
          (fun a l => insNew a (extendSortedLabels l sel)) acc) acc ↔
      x ∈ acc ∨ ∃ st ∈ stores, ∃ l ∈ st.labelSets,
        x = extendSortedLabels l sel := by
  induction stores generalizing acc with
  | nil => simp
  | cons hd rest ih =>
    rw [List.foldl_cons, ih, mem_foldl_insNew]
    simp only [List.mem_cons]
    constructor
    · rintro ((h | ⟨l, hl, he⟩) | ⟨st, hst, l, hl, he⟩)
      · exact Or.inl h
      · exact Or.inr ⟨hd, Or.inl rfl, l, hl, he⟩
      · exact Or.inr ⟨st, Or.inr hst, l, hl, he⟩
    · rintro (h | ⟨st, hst | hst, l, hl, he⟩)
      · exact Or.inl (Or.inl h)
      · exact Or.inl (Or.inr ⟨l, hst ▸ hl, he⟩)
      · exact Or.inr ⟨st, hst, l, hl, he⟩

/-- C9 (counterexample): `Info` does not always return the maximum of the
backends' max times — a backend whose whole range is negative yields
`max_time = 0` — and with an empty snapshot the early return leaves
`label_sets` empty even though the selector labels are non-empty. -/
theorem info_aggregation_counterexample :
    (infoResponse [] [stNeg]).maxTime = 0 ∧ stNeg.maxT = -1 ∧
    (infoResponse [] [stNeg]).maxTime ≠ -1 ∧
    (infoResponse [("r", "x")] []).labelSets = [] ∧
    (infoResponse [("r", "x")] []).labelSets ≠ [[("r", "x")]] := by decide

/-- C9 (amended): for a non-empty backend snapshot (with min times in the
int64 range), `Info` returns the minimum of the backends' min times, the
maximum of their max times clamped below at 0, and the deduplicated union
over backends of each label set merged with the selector labels (selector
winning on conflict); when that union is empty the selector labels, if
non-empty, are announced as the single label set (with the empty snapshot
returning `[0,0]` and no label sets, per the counterexample). -/
theorem info_aggregation (selector : Labels) (stores : List Store)
    (hne : stores ≠ []) (hrange : ∀ st ∈ stores, st.minT ≤ int64Max) :
    ((infoResponse selector stores).minTime ∈ stores.map Store.minT ∧
      ∀ st ∈ stores, (infoResponse selector stores).minTime ≤ st.minT) ∧
    (0 ≤ (infoResponse selector stores).maxTime ∧
      (∀ st ∈ stores, st.maxT ≤ (infoResponse selector stores).maxTime) ∧
      ((infoResponse selector stores).maxTime = 0 ∨
        (infoResponse selector stores).maxTime ∈ stores.map Store.maxT)) ∧
    (∀ x, x ∈ infoUnion selector stores ↔
      ∃ st ∈ stores, ∃ l ∈ st.labelSets, x = extendSortedLabels l selector) ∧
    ((infoUnion selector stores = [] → selector ≠ [] →
        (infoResponse selector stores).labelSets = [selector]) ∧
      (infoUnion selector stores = [] → selector = [] →
        (infoResponse selector stores).labelSets = []) ∧
      (infoUnion selector stores ≠ [] →
        (infoResponse selector stores).labelSets = infoUnion selector stores)) := by
  have hemp : stores.isEmpty = false := by
    cases stores with
    | nil => exact absurd rfl hne
    | cons a l => rfl
  have hmin : (infoResponse selector stores).minTime =
      stores.foldl (fun acc st => if st.minT < acc then st.minT else acc)
        int64Max := by
    simp [infoResponse, hemp]
  have hmax : (infoResponse selector stores).maxTime =
      stores.foldl (fun acc st => if st.maxT > acc then st.maxT else acc) 0 := by
    simp [infoResponse, hemp]
  have hlsets : (infoResponse selector stores).labelSets =
      (if (infoUnion selector stores).isEmpty && !selector.isEmpty then
        [selector] else infoUnion selector stores) := by
    simp [infoResponse, hemp]
  refine ⟨⟨?_, ?_⟩, ⟨?_, ?_, ?_⟩, ?_, ?_, ?_, ?_⟩
  · rw [hmin]
    rcases foldMin_mem_or_init stores int64Max with h | h
    · cases stores with
      | nil => exact absurd rfl hne
      | cons hd rest =>
        have hle := foldMin_le_mem (hd :: rest) int64Max hd
          (List.mem_cons_self hd rest)
        have hr := hrange hd (List.mem_cons_self hd rest)
        have : hd.minT =
            (hd :: rest).foldl
              (fun acc s => if s.minT < acc then s.minT else acc) int64Max := by
          omega
        rw [← this]
        exact List.mem_map_of_mem Store.minT (List.mem_cons_self hd rest)
    · exact h
  · intro st hst
    rw [hmin]
    exact foldMin_le_mem stores int64Max st hst
  · rw [hmax]
    exact foldMax_ge_init stores 0
  · intro st hst
    rw [hmax]
    exact foldMax_ge_mem stores 0 st hst
  · rw [hmax]
    exact foldMax_mem_or_init stores 0
  · intro x
    rw [infoUnion, mem_infoUnion_aux]
    simp
  · intro hu hsel
    rw [hlsets, hu]
    have : (selector.isEmpty) = false := by
      cases hs : selector with
      | nil => exact absurd hs hsel
      | cons a l => rfl
    simp [this]
  · intro hu hsel
    subst hsel
    rw [hlsets, hu]
    rfl
  · intro hu
    rw [hlsets]
    have : (infoUnion selector stores).isEmpty = false := by
      cases hs : infoUnion selector stores with
      | nil => exact absurd hs hu
      | cons a l => rfl
    simp [this]

/-- C9 (witness): S5 — two backends with ranges `[100,200]` and `[150,300]`
and proxy selector `{r="x"}`: the aggregated minimum is attained and bounds
both backends from below. -/
theorem info_aggregation_witness :
    (infoResponse [("r", "x")] [stA, stB]).minTime ∈
      [stA, stB].map Store.minT ∧
    ∀ st ∈ [stA, stB], (infoResponse [("r", "x")] [stA, stB]).minTime ≤
      st.minT :=
  (info_aggregation [("r", "x")] [stA, stB] (by decide) (by decide)).1

end ThanosProxy
